import Mathlib

/-!
Verification of the coordination logic of a single-file Flask media
downloader (`src/app.py`).  The app delegates fetching and transcoding to an
external extractor (yt-dlp) and codec toolchain; the logic owned by the app
itself is: collecting the distinct video heights from stream metadata,
building a format-selection expression, locating the produced file, cleanup
on failure, and the two HTTP handlers' parameter validation.

External effects are abstracted: the extractor invocation is a parameter
(its outcome, or the probe function), and the scratch directory is an
explicit state record.  Filesystem primitives (`shutil.rmtree`) are modelled
as succeeding.
-/

namespace Downloader

/-! ## Format discovery (`extract_video_resolutions`, src/app.py lines 346-368) -/

/-- The pure height-collection loop of `extract_video_resolutions`
(lines 360-368).  Each stream descriptor contributes its `height` field,
which is absent (`none`) for audio-only streams.  Python's `if h:` keeps a
height only when it is truthy, i.e. present and nonzero; the collected set
is returned sorted descending (`sorted(heights, reverse=True)`). -/
def video_heights (formats : List (Option Int)) : List Int :=
  let heights := ((formats.filterMap id).filter (fun h => h != 0)).dedup
  List.insertionSort (fun a b => a ≥ b) heights

/-- `extract_video_resolutions` (lines 346-368): the extractor call
`ydl.extract_info(url, download=False)` is abstracted by its outcome
`probe`; an extractor exception is re-raised as
`RuntimeError('Failed to extract video info: ...')` (lines 357-358),
otherwise the heights of `info.get('formats', [])` are collected. -/
def extract_video_resolutions (probe : Except String (List (Option Int))) :
    Except String (List Int) :=
  match probe with
  | .error e => .error ("Failed to extract video info: " ++ e)
  | .ok formats => .ok (video_heights formats)

/-! ## The `/formats` route (src/app.py lines 449-458) -/

/-- Response of the `/formats` handler: a plain-text client error with an
HTTP status, or the JSON resolution list. -/
inductive FormatsResponse where
  | clientError (status : Nat) (body : String)
  | ok (resolutions : List Int)
deriving DecidableEq, Repr

/-- The `/formats` handler (lines 449-458).  `request.args.get('url')` is
`none` when the query parameter is absent; Python's `if not url:` also
treats the empty string as missing.  Only past that check is the extractor
probe invoked. -/
def formats_route (urlArg : Option String)
    (probe : String → Except String (List (Option Int))) : FormatsResponse :=
  match urlArg with
  | none => .clientError 400 "Missing url parameter"
  | some u =>
    if u = "" then .clientError 400 "Missing url parameter"
    else
      match extract_video_resolutions (probe u) with
      | .error e => .clientError 400 e
      | .ok rs => .ok rs

/-! ## Format-selection expressions (src/app.py lines 383-409)

The app owns only the selector *strings*; their interpretation belongs to
the external extractor (spec section 6 calls it a black box).  We embed the
strings exactly as the source builds them, and separately give the
extractor's selection semantics for the fragment of the selector language
the app uses, modelled from the spec. -/

/-- A stream descriptor as seen by the selector language: an optional
vertical height, flags for carrying a video and an audio track, and the
extractor's internal quality-preference rank (higher is better). -/
structure StreamFormat where
  height : Option Int
  hasVideo : Bool
  hasAudio : Bool
  pref : Nat
deriving DecidableEq, Repr

/-- Abstract syntax of the selector fragment the app emits: the atoms
`bestvideo`, `bestaudio` and `best`, the first two optionally carrying a
`[height<=N]` filter, merged with `+` and given fallbacks with `/`. -/
inductive FormatSel where
  | bestvideo (maxh : Option Int)
  | bestaudio
  | best (maxh : Option Int)
  | plus (l r : FormatSel)
  | alt (l r : FormatSel)
deriving DecidableEq, Repr

/-- Renders a selector AST to the concrete string syntax the app writes
into `ydl_opts['format']`. -/
def FormatSel.render : FormatSel → String
  | .bestvideo none => "bestvideo"
  | .bestvideo (some n) => "bestvideo[height<=" ++ toString n ++ "]"
  | .bestaudio => "bestaudio"
  | .best none => "best"
  | .best (some n) => "best[height<=" ++ toString n ++ "]"
  | .plus l r => l.render ++ "+" ++ r.render
  | .alt l r => l.render ++ "/" ++ r.render

/-- The `[height<=N]` comparison filter.  Modelled from the spec: a
comparison filter matches only descriptors that report the field, so a
missing height fails the filter. -/
def heightAtMost (maxh : Option Int) (f : StreamFormat) : Bool :=
  match maxh with
  | none => true
  | some n =>
    match f.height with
    | some h => h ≤ n
    | none => false

/-- Matches `bestvideo[height<=N]`: a descriptor carrying a video track
within the height ceiling. -/
def matchesVideo (maxh : Option Int) (f : StreamFormat) : Bool :=
  f.hasVideo && heightAtMost maxh f

/-- Matches `bestaudio`: an audio-only descriptor. -/
def matchesAudioOnly (f : StreamFormat) : Bool :=
  f.hasAudio && !f.hasVideo

/-- Matches `best[height<=N]`: a single-file descriptor carrying both a
video and an audio track, within the height ceiling.  Modelled from the
spec: `best` selects the best single stream with both tracks. -/
def matchesMuxed (maxh : Option Int) (f : StreamFormat) : Bool :=
  f.hasVideo && f.hasAudio && heightAtMost maxh f

/-- Picks the candidate with the highest preference rank (the extractor's
notion of "best"); `none` on an empty candidate list. -/
def pickBest : List StreamFormat → Option StreamFormat
  | [] => none
  | f :: fs =>
    match pickBest fs with
    | none => some f
    | some g => some (if g.pref > f.pref then g else f)

/-- What a selector resolves to: a single stream, or a video stream merged
with an audio stream. -/
inductive Selection where
  | single (f : StreamFormat)
  | merged (v a : StreamFormat)
deriving DecidableEq, Repr

/-- Selection semantics of the selector fragment, modelled from the spec
(section 6: the extractor consumes "a format-selection expression" choosing
among stream descriptors).  `/` tries the left alternative first; `+`
requires both operands to resolve to single streams and merges them. -/
def FormatSel.eval : FormatSel → List StreamFormat → Option Selection
  | .bestvideo maxh, fs => (pickBest (fs.filter (matchesVideo maxh))).map .single
  | .bestaudio, fs => (pickBest (fs.filter matchesAudioOnly)).map .single
  | .best maxh, fs => (pickBest (fs.filter (matchesMuxed maxh))).map .single
  | .plus l r, fs =>
    match l.eval fs, r.eval fs with
    | some (.single v), some (.single a) => some (.merged v a)
    | _, _ => none
  | .alt l r, fs =>
    match l.eval fs with
    | some s => some s
    | none => r.eval fs

/-! ## Fetch options (`download_video_to_temp`, src/app.py lines 371-439) -/

/-- The Python `resolution` value flowing into `download_video_to_temp`:
either the string sentinel `'best'` or an `int` (the `/download` handler
converts the form field with `int(...)` at lines 475-479). -/
inductive PyRes where
  | best
  | num (n : Int)
deriving DecidableEq, Repr

/-- The format selector string built at lines 396-402: `'best'` yields
`'bestvideo+bestaudio/best'`, an integer ceiling `n` yields the f-string
`f"bestvideo[height<={n}]+bestaudio/best[height<={n}]"`. -/
def format_selector (resolution : PyRes) : String :=
  match resolution with
  | .best => "bestvideo+bestaudio/best"
  | .num n =>
    "bestvideo[height<=" ++ toString n ++ "]+bestaudio/best[height<=" ++
      toString n ++ "]"

/-- AST form of the video selector the app builds: a `bestvideo` (with the
optional height ceiling) merged with `bestaudio`, falling back to `best`
(same ceiling). -/
def videoSelAST (maxh : Option Int) : FormatSel :=
  .alt (.plus (.bestvideo maxh) .bestaudio) (.best maxh)

/-- The height ceiling carried by a `PyRes`. -/
def PyRes.ceiling : PyRes → Option Int
  | .best => none
  | .num n => some n

/-- AST form of the mp3 selector `'bestaudio/best'` (line 385). -/
def audioSelAST : FormatSel :=
  .alt .bestaudio (.best none)

/-- One entry of `ydl_opts['postprocessors']` (lines 389-393). -/
structure Postprocessor where
  key : String
  preferredcodec : String
  preferredquality : String
deriving DecidableEq, Repr

/-- The `ydl_opts` dictionary fields the app sets (lines 383-409). -/
structure YdlOpts where
  format : String
  outtmpl : String
  quiet : Bool
  no_warnings : Bool
  merge_output_format : Option String
  postprocessors : List Postprocessor
deriving DecidableEq, Repr

/-- The output template `os.path.join(tempdir, '%(title).200s.%(ext)s')`
(line 380). -/
def outtmpl_for (tempdir : String) : String :=
  tempdir ++ "/" ++ "%(title).200s.%(ext)s"

/-- Builds `ydl_opts` exactly as `download_video_to_temp` does
(lines 383-409): the mp3 branch requests `'bestaudio/best'` with an
`FFmpegExtractAudio` postprocessor at codec `mp3`, quality `'192'`; every
other `want_format` takes the video branch, with the resolution-dependent
selector and `merge_output_format: 'mp4'`. -/
def build_ydl_opts (tempdir want_format : String) (resolution : PyRes) :
    YdlOpts :=
  if want_format = "mp3" then
    { format := "bestaudio/best"
      outtmpl := outtmpl_for tempdir
      quiet := true
      no_warnings := true
      merge_output_format := none
      postprocessors := [⟨"FFmpegExtractAudio", "mp3", "192"⟩] }
  else
    { format := format_selector resolution
      outtmpl := outtmpl_for tempdir
      quiet := true
      no_warnings := true
      merge_output_format := some "mp4"
      postprocessors := [] }

/-! ## Output-path resolution and cleanup (lines 411-439) -/

/-- Core of `os.path.splitext` on the reversed character list: walking from
the end of the path, a `/` before any `.` means the basename has no
extension; the first `.` found is the last dot of the string, and it starts
an extension only if the basename holds a non-dot character before it
(leading dots of a basename, as in `.bashrc`, never start an extension).
Returns the reversed root when an extension exists. -/
def splitextRootRev : List Char → Option (List Char)
  | [] => none
  | '/' :: _ => none
  | '.' :: rest =>
    if (rest.takeWhile (fun c => c ≠ '/')).any (fun c => c ≠ '.') then
      some rest
    else none
  | _ :: rest => splitextRootRev rest

/-- `os.path.splitext(p)[0]`: the path without its extension. -/
def pySplitextRoot (p : String) : String :=
  match splitextRootRev p.data.reverse with
  | some revRoot => String.mk revRoot.reverse
  | none => p

/-- The extension adjustment at lines 418-420: for mp3 the produced file is
the prepared filename with its extension replaced by `.mp3`
(`os.path.splitext(filename)[0] + '.mp3'`). -/
def mp3AdjustFilename (filename : String) : String :=
  pySplitextRoot filename ++ ".mp3"

/-- State of the per-request scratch directory: whether it still exists and
the files it holds (the listing `pathlib.Path(tempdir).glob('*')` would
return). -/
structure ScratchState where
  dirExists : Bool
  files : List String
deriving DecidableEq, Repr

/-- Outcome of the extractor run `ydl.extract_info(url, download=True)`
(line 413), abstracted: either an exception with its message, or success
with the `ydl.prepare_filename(info)` result (line 416) and the files the
run left in the scratch directory. -/
inductive ExtractOutcome where
  | failure (msg : String)
  | success (preparedFilename : String) (producedFiles : List String)
deriving DecidableEq, Repr

/-- The body of `download_video_to_temp` after the scratch directory is
created (lines 411-439), with the extractor run abstracted by `outcome` and
`shutil.rmtree` modelled as emptying and removing the directory.  On an
extractor exception the directory is removed and the error re-raised
(lines 421-427); on success the expected filename (extension-adjusted for
mp3) is returned if present, otherwise the first file in the directory,
and an empty directory is removed and reported as
`'No output file was produced'` (lines 429-439). -/
def download_video_to_temp (tempdir want_format : String)
    (outcome : ExtractOutcome) : Except String (String × String) × ScratchState :=
  match outcome with
  | .failure e =>
    (.error ("Download/conversion failed: " ++ e), ⟨false, []⟩)
  | .success prepared files =>
    let filename :=
      if want_format = "mp3" then mp3AdjustFilename prepared else prepared
    if filename ∈ files then
      (.ok (tempdir, filename), ⟨true, files⟩)
    else
      match files with
      | f :: _ => (.ok (tempdir, f), ⟨true, files⟩)
      | [] => (.error "No output file was produced", ⟨false, []⟩)

/-! ## The `/download` route (src/app.py lines 461-484) -/

/-- Reads a nonempty all-digit character list as a natural number. -/
def natOfDigits (ds : List Char) : Option Nat :=
  match ds with
  | [] => none
  | _ =>
    if ds.all (fun c => c.isDigit) then
      some (ds.foldl (fun a c => a * 10 + (c.toNat - '0'.toNat)) 0)
    else none

/-- Python's `int(s)` on a string (line 477), for ASCII inputs without
digit-group underscores: surrounding whitespace is stripped, an optional
single sign precedes one or more decimal digits; anything else raises
(here: `none`). -/
def pyInt (s : String) : Option Int :=
  let cs := s.data.dropWhile (fun c => c.isWhitespace)
  let cs := (cs.reverse.dropWhile (fun c => c.isWhitespace)).reverse
  match cs with
  | '+' :: ds => (natOfDigits ds).map (fun n => (n : Int))
  | '-' :: ds => (natOfDigits ds).map (fun n => -(n : Int))
  | ds => (natOfDigits ds).map (fun n => (n : Int))

/-- The resolution conversion at lines 474-479: a value other than
`'best'` is passed through `int(...)`, and on a conversion error the value
is reset to `'best'`. -/
def parse_resolution (resolution : String) : PyRes :=
  if resolution = "best" then .best
  else
    match pyInt resolution with
    | some n => .num n
    | none => .best

/-- Validated arguments the `/download` handler passes on to
`download_video_to_temp`: the url, the format, and the converted
resolution. -/
structure DownloadArgs where
  url : String
  fmt : String
  resolution : PyRes
deriving DecidableEq, Repr

/-- The validation prefix of the `/download` handler (lines 461-479):
`url` is required and must be truthy; `format` defaults to `'mp4'` when the
field is absent and must lie in `('mp3', 'mp4')`; `resolution` defaults to
`'best'` and is converted by `parse_resolution`.  Field values are `none`
when the form omits the field (`request.form.get`). -/
def download_route (urlField fmtField resField : Option String) :
    Except (Nat × String) DownloadArgs :=
  let url := urlField.getD ""
  let fmt := fmtField.getD "mp4"
  let resolution := resField.getD "best"
  if url = "" then .error (400, "Missing url")
  else if fmt = "mp3" ∨ fmt = "mp4" then
    .ok ⟨url, fmt, parse_resolution resolution⟩
  else .error (400, "Invalid format")

/-! ## Helper lemmas -/

theorem pickBest_mem :
    ∀ {l : List StreamFormat} {f : StreamFormat}, pickBest l = some f → f ∈ l := by
  intro l
  induction l with
  | nil => intro f h; simp [pickBest] at h
  | cons g l ih =>
    intro f h
    rw [pickBest] at h
    cases hp : pickBest l with
    | none =>
      rw [hp] at h
      injection h with h
      exact h ▸ List.mem_cons_self _ _
    | some b =>
      rw [hp] at h
      injection h with h
      subst h
      split
      · exact List.mem_cons_of_mem _ (ih hp)
      · exact List.mem_cons_self _ _

theorem pickBest_eq_none {l : List StreamFormat} (h : pickBest l = none) :
    l = [] := by
  cases l with
  | nil => rfl
  | cons g l =>
    rw [pickBest] at h
    cases hp : pickBest l with
    | none => rw [hp] at h; simp at h
    | some b => rw [hp] at h; simp at h

theorem pickBest_isMax :
    ∀ {l : List StreamFormat} {f : StreamFormat}, pickBest l = some f →
      ∀ g ∈ l, g.pref ≤ f.pref := by
  intro l
  induction l with
  | nil => intro f h; simp [pickBest] at h
  | cons a l ih =>
    intro f h g hg
    rw [pickBest] at h
    cases hp : pickBest l with
    | none =>
      rw [hp] at h
      injection h with h
      subst h
      rcases List.mem_cons.1 hg with rfl | hgl
      · exact le_refl _
      · rw [pickBest_eq_none hp] at hgl; simp at hgl
    | some b =>
      rw [hp] at h
      injection h with h
      subst h
      rcases List.mem_cons.1 hg with rfl | hgl
      · split <;> omega
      · have hb := ih hp g hgl
        split <;> omega

/-- Evaluation of the app's video selector, unfolded: a merged pair when
both a matching video stream and an audio-only stream exist, otherwise the
best muxed stream under the ceiling. -/
theorem videoSel_eval (maxh : Option Int) (streams : List StreamFormat) :
    (videoSelAST maxh).eval streams =
      match pickBest (streams.filter (matchesVideo maxh)),
          pickBest (streams.filter matchesAudioOnly) with
      | some v, some a => some (.merged v a)
      | _, _ => (pickBest (streams.filter (matchesMuxed maxh))).map .single := by
  rw [videoSelAST]
  cases hv : pickBest (streams.filter (matchesVideo maxh)) <;>
    cases ha : pickBest (streams.filter matchesAudioOnly) <;>
      simp [FormatSel.eval, hv, ha]

theorem matchesVideo_spec {maxh : Option Int} {f : StreamFormat}
    (h : matchesVideo maxh f = true) :
    f.hasVideo = true ∧ ∀ n, maxh = some n → ∃ hh, f.height = some hh ∧ hh ≤ n := by
  rw [matchesVideo, Bool.and_eq_true] at h
  refine ⟨h.1, ?_⟩
  intro n hn
  have h2 := h.2
  rw [hn, heightAtMost] at h2
  cases hf : f.height with
  | none => rw [hf] at h2; simp at h2
  | some hh => rw [hf] at h2; exact ⟨hh, rfl, by simpa using h2⟩

theorem matchesAudioOnly_spec {f : StreamFormat}
    (h : matchesAudioOnly f = true) : f.hasAudio = true ∧ f.hasVideo = false := by
  rw [matchesAudioOnly, Bool.and_eq_true] at h
  exact ⟨h.1, by simpa using h.2⟩

theorem matchesMuxed_spec {maxh : Option Int} {f : StreamFormat}
    (h : matchesMuxed maxh f = true) :
    f.hasVideo = true ∧ f.hasAudio = true ∧
      ∀ n, maxh = some n → ∃ hh, f.height = some hh ∧ hh ≤ n := by
  rw [matchesMuxed, Bool.and_eq_true, Bool.and_eq_true] at h
  refine ⟨h.1.1, h.1.2, ?_⟩
  intro n hn
  have h2 := h.2
  rw [hn, heightAtMost] at h2
  cases hf : f.height with
  | none => rw [hf] at h2; simp at h2
  | some hh => rw [hf] at h2; exact ⟨hh, rfl, by simpa using h2⟩

theorem videoSelAST_render_num (n : Int) :
    (videoSelAST (some n)).render = format_selector (.num n) := by
  have h1 : ("]+bestaudio/best[height<=" : String) =
      "]+bestaudio/" ++ "best[height<=" := by decide
  simp [videoSelAST, FormatSel.render, format_selector, String.append_assoc]
  rw [h1, String.append_assoc]

theorem videoSelAST_render_best :
    (videoSelAST none).render = format_selector .best := by decide

theorem audioSelAST_render : audioSelAST.render = "bestaudio/best" := by decide

/-- Membership in the discovered resolution list: exactly the heights that
occur in some descriptor and are nonzero. -/
theorem mem_video_heights (formats : List (Option Int)) (h : Int) :
    h ∈ video_heights formats ↔ some h ∈ formats ∧ h ≠ 0 := by
  simp [video_heights, List.mem_insertionSort, List.mem_dedup, List.mem_filter,
    List.mem_filterMap]

/-- Inversion for the video selector: a merged result names the best
matching video candidate and the best audio-only candidate. -/
theorem videoSel_eval_merged {maxh : Option Int} {streams : List StreamFormat}
    {v a : StreamFormat}
    (hev : (videoSelAST maxh).eval streams = some (.merged v a)) :
    pickBest (streams.filter (matchesVideo maxh)) = some v
    ∧ pickBest (streams.filter matchesAudioOnly) = some a := by
  rw [videoSel_eval] at hev
  cases hv : pickBest (streams.filter (matchesVideo maxh)) with
  | none =>
    rw [hv] at hev
    cases hm : pickBest (streams.filter (matchesMuxed maxh)) <;>
      rw [hm] at hev <;> simp at hev
  | some v' =>
    rw [hv] at hev
    cases ha : pickBest (streams.filter matchesAudioOnly) with
    | none =>
      rw [ha] at hev
      cases hm : pickBest (streams.filter (matchesMuxed maxh)) <;>
        rw [hm] at hev <;> simp at hev
    | some a' =>
      rw [ha] at hev
      simp at hev
      exact ⟨by rw [hev.1], by rw [hev.2]⟩

/-- Inversion for the video selector: a single-stream result means the
merged alternative failed (no matching video or no audio-only stream) and
the fallback `best` picked the stream. -/
theorem videoSel_eval_single {maxh : Option Int} {streams : List StreamFormat}
    {s : StreamFormat}
    (hev : (videoSelAST maxh).eval streams = some (.single s)) :
    (pickBest (streams.filter (matchesVideo maxh)) = none
      ∨ pickBest (streams.filter matchesAudioOnly) = none)
    ∧ pickBest (streams.filter (matchesMuxed maxh)) = some s := by
  rw [videoSel_eval] at hev
  cases hv : pickBest (streams.filter (matchesVideo maxh)) with
  | none =>
    rw [hv] at hev
    cases hm : pickBest (streams.filter (matchesMuxed maxh)) <;>
      rw [hm] at hev <;> simp at hev
    exact ⟨Or.inl rfl, by rw [hev]⟩
  | some v' =>
    rw [hv] at hev
    cases ha : pickBest (streams.filter matchesAudioOnly) with
    | none =>
      rw [ha] at hev
      cases hm : pickBest (streams.filter (matchesMuxed maxh)) <;>
        rw [hm] at hev <;> simp at hev
      exact ⟨Or.inr rfl, by rw [hev]⟩
    | some a' =>
      rw [ha] at hev
      simp at hev

/-- Unfolded evaluation of the mp3 selector `bestaudio/best`. -/
theorem audioSel_eval (streams : List StreamFormat) :
    audioSelAST.eval streams =
      match pickBest (streams.filter matchesAudioOnly) with
      | some a => some (.single a)
      | none => (pickBest (streams.filter (matchesMuxed none))).map .single := by
  rw [audioSelAST]
  cases ha : pickBest (streams.filter matchesAudioOnly) <;>
    simp [FormatSel.eval, ha]

/-- A `pickBest` over a filtered list coming up empty means no stream
satisfies the filter. -/
theorem no_match_of_pickBest_filter_none {p : StreamFormat → Bool}
    {streams : List StreamFormat}
    (h : pickBest (streams.filter p) = none) :
    ∀ g ∈ streams, p g = false := by
  have hnil := pickBest_eq_none h
  intro g hg
  by_contra hc
  have hmem : g ∈ streams.filter p :=
    List.mem_filter.2 ⟨hg, by simpa using hc⟩
  rw [hnil] at hmem
  simp at hmem

/-- A `pickBest` over a filtered list returns a stream of the original
list that satisfies the filter and ranks at least as high as every other
stream satisfying it. -/
theorem pickBest_filter_spec {p : StreamFormat → Bool}
    {streams : List StreamFormat} {f : StreamFormat}
    (h : pickBest (streams.filter p) = some f) :
    f ∈ streams ∧ p f = true ∧
      ∀ g ∈ streams, p g = true → g.pref ≤ f.pref := by
  have hmem := pickBest_mem h
  have hf := List.mem_filter.1 hmem
  refine ⟨hf.1, hf.2, ?_⟩
  intro g hg hpg
  exact pickBest_isMax h g (List.mem_filter.2 ⟨hg, hpg⟩)

/-! ## Claims -/

/-- C3 (amended): for every list of stream descriptors,
`extract_video_resolutions` returns the distinct *nonzero* heights present
among the descriptors (descriptors lacking a height are excluded, and so is
a reported height of 0, since Python's `if h:` tests truthiness), sorted in
descending order; in particular heights `480, 480, 720, None, 1080` give
`[1080, 720, 480]`. -/
theorem c3_heights_distinct_sorted_desc (formats : List (Option Int)) :
    List.Sorted (fun a b => a ≥ b) (video_heights formats)
    ∧ (video_heights formats).Nodup
    ∧ (∀ h : Int, h ∈ video_heights formats ↔ some h ∈ formats ∧ h ≠ 0)
    ∧ video_heights [some 480, some 480, some 720, none, some 1080] =
        [1080, 720, 480] := by
  refine ⟨?_, ?_, fun h => mem_video_heights formats h, by decide⟩
  · exact List.sorted_insertionSort _ _
  · exact (List.perm_insertionSort _ _).nodup_iff.2 (List.nodup_dedup _)

/-- C3 as stated is false on the code: a descriptor reporting height 0 is
present among the descriptors yet excluded from the result, so the result
is not "exactly the distinct heights present". -/
theorem c3_counterexample :
    some (0 : Int) ∈ [some (480 : Int), some 0]
    ∧ video_heights [some 480, some 0] = [480]
    ∧ (0 : Int) ∉ video_heights [some 480, some 0] := by decide

/-- C10 (amended): a descriptor reporting height 0 is excluded exactly as a
descriptor lacking a height, and every element of the returned list is a
nonzero integer (not necessarily positive: a negative reported height is
truthy in Python and is kept). -/
theorem c10_zero_height_excluded (pre post : List (Option Int)) :
    video_heights (pre ++ some 0 :: post) = video_heights (pre ++ none :: post)
    ∧ ∀ h : Int, h ∈ video_heights (pre ++ some 0 :: post) → h ≠ 0 := by
  constructor
  · simp [video_heights, List.filterMap_append, List.filterMap_cons,
      List.filter_append, List.filter_cons]
  · exact fun h hm => ((mem_video_heights _ h).1 hm).2

/-- Witness for C10's theorem at a concrete descriptor list. -/
theorem c10_witness :
    video_heights ([some 480] ++ some 0 :: [some 720]) =
      video_heights ([some 480] ++ none :: [some 720])
    ∧ (720 : Int) ≠ 0 :=
  ⟨(c10_zero_height_excluded [some 480] [some 720]).1,
   (c10_zero_height_excluded [some 480] [some 720]).2 720 (by decide)⟩

/-- C10 as stated is false on the code: a negative reported height is kept,
so the returned elements are not all strictly positive. -/
theorem c10_counterexample :
    video_heights [some (-1)] = [-1] ∧ ¬ (0 : Int) < -1 := by decide

/-- C1 as stated is false on the code: the input `"0"` fails to parse as a
*positive* integer (Python `int("0")` succeeds but yields `0`, which is not
positive) and is not the sentinel, yet the handler does not default it to
`"best"`: the resulting format selector differs from the `"best"` one. -/
theorem c1_counterexample :
    pyInt "0" = some 0
    ∧ ¬ (0 : Int) < 0
    ∧ "0" ≠ "best"
    ∧ parse_resolution "0" ≠ PyRes.best
    ∧ format_selector (parse_resolution "0") ≠ format_selector PyRes.best := by
  decide

/-- C1 (amended): for every `resolution` field value on which Python
`int(...)` raises (and trivially for the sentinel itself), the `/download`
handler defaults the value to `"best"` before the fetch operation is
invoked: the handler result and the derived format selector coincide with
those for input `"best"`; in particular `"abc"` yields the same selector as
`"best"`. -/
theorem c1_unparsable_resolution_defaults (s : String) (hs : pyInt s = none)
    (urlField fmtField : Option String) :
    parse_resolution s = PyRes.best
    ∧ download_route urlField fmtField (some s) =
        download_route urlField fmtField (some "best")
    ∧ format_selector (parse_resolution s) = format_selector PyRes.best := by
  have hp : parse_resolution s = PyRes.best := by
    rw [parse_resolution]
    split
    · rfl
    · rw [hs]
  have hb : parse_resolution "best" = PyRes.best := rfl
  exact ⟨hp, by simp [download_route, hp, hb], by rw [hp]⟩

/-- Witness for C1's amended theorem at the input `"abc"`. -/
theorem c1_witness :
    parse_resolution "abc" = PyRes.best
    ∧ download_route (some "https://example/video1") none (some "abc") =
        download_route (some "https://example/video1") none (some "best")
    ∧ format_selector (parse_resolution "abc") = format_selector PyRes.best :=
  c1_unparsable_resolution_defaults "abc" (by decide)
    (some "https://example/video1") none

/-- C9: a POST to `/download` omitting the `format` field entirely is not
rejected as an invalid format: the missing field defaults to `'mp4'` and
validation succeeds, handing the request on to the fetch stage; only a
present `format` value outside `{mp3, mp4}` is rejected with a 400
`Invalid format`. -/
theorem c9_missing_format_defaults_mp4 (u : String) (hu : u ≠ "")
    (resField : Option String) :
    download_route (some u) none resField =
      .ok ⟨u, "mp4", parse_resolution (resField.getD "best")⟩
    ∧ ∀ f : String, f ≠ "mp3" → f ≠ "mp4" →
        download_route (some u) (some f) resField =
          .error (400, "Invalid format") := by
  constructor
  · simp [download_route, hu]
  · intro f h3 h4
    simp [download_route, hu, h3, h4]

/-- Witness for C9's theorem at a concrete request. -/
theorem c9_witness :
    download_route (some "https://example/video1") none none =
      .ok ⟨"https://example/video1", "mp4", PyRes.best⟩
    ∧ download_route (some "https://example/video1") (some "wav") none =
        .error (400, "Invalid format") :=
  ⟨(c9_missing_format_defaults_mp4 "https://example/video1" (by decide) none).1,
   (c9_missing_format_defaults_mp4 "https://example/video1" (by decide) none).2
     "wav" (by decide) (by decide)⟩

/-- C8: a `/formats` request lacking the `url` query parameter (or carrying
an empty one, which Python's `if not url:` treats the same) receives a 400
"Missing url parameter" response whose value is independent of the
extractor probe — no external call is observable; a discovery failure for a
present url is returned as a 400 carrying the failure reason as plain
text. -/
theorem c8_formats_missing_url
    (probeA probeB : String → Except String (List (Option Int)))
    (u e : String) (hu : u ≠ "") (he : probeA u = .error e) :
    formats_route none probeA = .clientError 400 "Missing url parameter"
    ∧ formats_route none probeA = formats_route none probeB
    ∧ formats_route (some "") probeA = .clientError 400 "Missing url parameter"
    ∧ formats_route (some u) probeA =
        .clientError 400 ("Failed to extract video info: " ++ e) := by
  refine ⟨rfl, rfl, rfl, ?_⟩
  simp [formats_route, hu, extract_video_resolutions, he]

/-- Witness for C8's theorem at a concrete failing probe. -/
theorem c8_witness :
    formats_route none (fun _ => .error "boom") =
      .clientError 400 "Missing url parameter"
    ∧ formats_route none (fun _ => .error "boom") =
        formats_route none (fun _ => .ok [some 720])
    ∧ formats_route (some "") (fun _ => .error "boom") =
        .clientError 400 "Missing url parameter"
    ∧ formats_route (some "https://example/video1") (fun _ => .error "boom") =
        .clientError 400 ("Failed to extract video info: " ++ "boom") :=
  c8_formats_missing_url (fun _ => .error "boom") (fun _ => .ok [some 720])
    "https://example/video1" "boom" (by decide) rfl

/-- C6: when the extractor/downloader run raises, `download_video_to_temp`
deletes the scratch directory synchronously before surfacing the error: the
call returns an error wrapping the extractor's message, and immediately
afterwards the scratch directory no longer exists and holds no partial
artifact. -/
theorem c6_failure_cleanup (tempdir want_format e : String) :
    (download_video_to_temp tempdir want_format (.failure e)).1 =
      .error ("Download/conversion failed: " ++ e)
    ∧ (download_video_to_temp tempdir want_format (.failure e)).2.dirExists = false
    ∧ (download_video_to_temp tempdir want_format (.failure e)).2.files = [] :=
  ⟨rfl, rfl, rfl⟩

/-- C7: after an extractor run that raises no error, if the expected output
path (extension-adjusted for mp3) is absent from the scratch directory,
the fetch returns the first file found there instead; if the directory is
empty it is deleted and the call fails with the "no output" error. -/
theorem c7_fallback_first_file (tempdir want_format prepared : String)
    (files : List String)
    (habs : (if want_format = "mp3" then mp3AdjustFilename prepared
        else prepared) ∉ files) :
    (files = [] →
      download_video_to_temp tempdir want_format (.success prepared files) =
        (.error "No output file was produced", ⟨false, []⟩))
    ∧ ∀ f rest, files = f :: rest →
        download_video_to_temp tempdir want_format (.success prepared files) =
          (.ok (tempdir, f), ⟨true, files⟩) := by
  constructor
  · intro h
    subst h
    simp [download_video_to_temp]
  · intro f rest h
    subst h
    simp [download_video_to_temp, habs]

/-- Witness for C7's theorem: an empty scratch directory fails, a nonempty
one yields its first file. -/
theorem c7_witness :
    download_video_to_temp "/tmp/yt_dl_w" "mp3"
        (.success "/tmp/yt_dl_w/t.webm" []) =
      (.error "No output file was produced", ⟨false, []⟩)
    ∧ download_video_to_temp "/tmp/yt_dl_w" "mp3"
        (.success "/tmp/yt_dl_w/t.webm" ["/tmp/yt_dl_w/t.m4a"]) =
      (.ok ("/tmp/yt_dl_w", "/tmp/yt_dl_w/t.m4a"),
        ⟨true, ["/tmp/yt_dl_w/t.m4a"]⟩) :=
  ⟨(c7_fallback_first_file "/tmp/yt_dl_w" "mp3" "/tmp/yt_dl_w/t.webm" []
      (by decide)).1 rfl,
   (c7_fallback_first_file "/tmp/yt_dl_w" "mp3" "/tmp/yt_dl_w/t.webm"
      ["/tmp/yt_dl_w/t.m4a"] (by decide)).2 "/tmp/yt_dl_w/t.m4a" [] rfl⟩

/-- C2: for a positive integer ceiling `N`, the video branch of the fetch
builds the selector `bestvideo[height<=N]+bestaudio/best[height<=N]`
(rendered from its AST), whose selection always constrains the chosen
video stream's height to at most `N` and pairs it with an audio-only
stream, falling back to the best single muxed stream within the ceiling
only when no such video/audio pair exists; the output container is forced
to mp4 via `merge_output_format` regardless of the source container. -/
theorem c2_video_ceiling_selector (tempdir : String) (N : Int) (hN : 0 < N)
    (streams : List StreamFormat) :
    (build_ydl_opts tempdir "mp4" (.num N)).format = (videoSelAST (some N)).render
    ∧ (build_ydl_opts tempdir "mp4" (.num N)).merge_output_format = some "mp4"
    ∧ (∀ v a, (videoSelAST (some N)).eval streams = some (.merged v a) →
        v.hasVideo = true ∧ (∃ hh, v.height = some hh ∧ hh ≤ N)
        ∧ a.hasAudio = true ∧ a.hasVideo = false)
    ∧ (∀ s, (videoSelAST (some N)).eval streams = some (.single s) →
        (¬ ∃ v ∈ streams, matchesVideo (some N) v = true ∧
            ∃ a ∈ streams, matchesAudioOnly a = true)
        ∧ s.hasVideo = true ∧ s.hasAudio = true
        ∧ ∃ hh, s.height = some hh ∧ hh ≤ N) := by
  refine ⟨by rw [videoSelAST_render_num]; rfl, rfl, ?_, ?_⟩
  · intro v a hev
    obtain ⟨hv, ha⟩ := videoSel_eval_merged hev
    obtain ⟨hvm, hvp, -⟩ := pickBest_filter_spec hv
    obtain ⟨ham, hap, -⟩ := pickBest_filter_spec ha
    obtain ⟨h1, h2⟩ := matchesVideo_spec hvp
    obtain ⟨h3, h4⟩ := matchesAudioOnly_spec hap
    exact ⟨h1, h2 N rfl, h3, h4⟩
  · intro s hev
    obtain ⟨hor, hm⟩ := videoSel_eval_single hev
    obtain ⟨hsm, hsp, -⟩ := pickBest_filter_spec hm
    obtain ⟨h1, h2, h3⟩ := matchesMuxed_spec hsp
    refine ⟨?_, h1, h2, h3 N rfl⟩
    rintro ⟨v, hvmem, hvmatch, a, hamem, hamatch⟩
    rcases hor with hnone | hnone
    · have hfalse := no_match_of_pickBest_filter_none hnone v hvmem
      rw [hvmatch] at hfalse
      simp at hfalse
    · have hfalse := no_match_of_pickBest_filter_none hnone a hamem
      rw [hamatch] at hfalse
      simp at hfalse

/-- Witness for C2's theorem: with ceiling 720 over streams of heights
1080 and 720 plus an audio-only stream, the selection merges the
720-height video with the audio stream. -/
theorem c2_witness :
    (⟨some 720, true, false, 7⟩ : StreamFormat).hasVideo = true
    ∧ (⟨none, false, true, 3⟩ : StreamFormat).hasAudio = true
    ∧ (⟨none, false, true, 3⟩ : StreamFormat).hasVideo = false := by
  have h := (c2_video_ceiling_selector "/tmp/yt_dl_x" 720 (by decide)
      [⟨some 1080, true, false, 9⟩, ⟨some 720, true, false, 7⟩,
        ⟨none, false, true, 3⟩]).2.2.1
    ⟨some 720, true, false, 7⟩ ⟨none, false, true, 3⟩ (by decide)
  exact ⟨h.1, h.2.2.1, h.2.2.2⟩

/-- C5: with resolution `best`, the video branch builds the selector
`bestvideo+bestaudio/best` (output container forced to mp4): the selection
merges the best-ranked video stream with the best-ranked audio-only
stream, and falls back to the best single muxed stream only when no such
pair exists. -/
theorem c5_best_selector (tempdir : String) (streams : List StreamFormat) :
    (build_ydl_opts tempdir "mp4" .best).format = "bestvideo+bestaudio/best"
    ∧ (build_ydl_opts tempdir "mp4" .best).format = (videoSelAST none).render
    ∧ (build_ydl_opts tempdir "mp4" .best).merge_output_format = some "mp4"
    ∧ (∀ v a, (videoSelAST none).eval streams = some (.merged v a) →
        v.hasVideo = true
        ∧ (∀ g ∈ streams, matchesVideo none g = true → g.pref ≤ v.pref)
        ∧ a.hasAudio = true ∧ a.hasVideo = false
        ∧ (∀ g ∈ streams, matchesAudioOnly g = true → g.pref ≤ a.pref))
    ∧ (∀ s, (videoSelAST none).eval streams = some (.single s) →
        (¬ ∃ v ∈ streams, matchesVideo none v = true ∧
            ∃ a ∈ streams, matchesAudioOnly a = true)
        ∧ s.hasVideo = true ∧ s.hasAudio = true) := by
  refine ⟨rfl, by rw [videoSelAST_render_best]; rfl, rfl, ?_, ?_⟩
  · intro v a hev
    obtain ⟨hv, ha⟩ := videoSel_eval_merged hev
    obtain ⟨hvm, hvp, hvmax⟩ := pickBest_filter_spec hv
    obtain ⟨ham, hap, hamax⟩ := pickBest_filter_spec ha
    obtain ⟨h1, -⟩ := matchesVideo_spec hvp
    obtain ⟨h3, h4⟩ := matchesAudioOnly_spec hap
    exact ⟨h1, hvmax, h3, h4, hamax⟩
  · intro s hev
    obtain ⟨hor, hm⟩ := videoSel_eval_single hev
    obtain ⟨hsm, hsp, -⟩ := pickBest_filter_spec hm
    obtain ⟨h1, h2, -⟩ := matchesMuxed_spec hsp
    refine ⟨?_, h1, h2⟩
    rintro ⟨v, hvmem, hvmatch, a, hamem, hamatch⟩
    rcases hor with hnone | hnone
    · have hfalse := no_match_of_pickBest_filter_none hnone v hvmem
      rw [hvmatch] at hfalse
      simp at hfalse
    · have hfalse := no_match_of_pickBest_filter_none hnone a hamem
      rw [hamatch] at hfalse
      simp at hfalse

/-- Witness for C5's theorem: with resolution `best`, the 1080-height
video stream is merged with the audio-only stream. -/
theorem c5_witness :
    (⟨some 1080, true, false, 9⟩ : StreamFormat).hasVideo = true
    ∧ (⟨none, false, true, 3⟩ : StreamFormat).hasAudio = true := by
  have h := (c5_best_selector "/tmp/yt_dl_x"
      [⟨some 1080, true, false, 9⟩, ⟨none, false, true, 3⟩]).2.2.2.1
    ⟨some 1080, true, false, 9⟩ ⟨none, false, true, 3⟩ (by decide)
  exact ⟨h.1, h.2.2.1⟩

/-- C4: the audio branch requests `bestaudio/best` — the best-ranked
audio-only stream, falling back to the best single muxed stream only when
no audio-only stream exists — and configures the `FFmpegExtractAudio`
postprocessor with the fixed codec `mp3` at the fixed quality `'192'`;
whatever the source container put into the prepared filename, the expected
output path replaces its extension with `.mp3`. -/
theorem c4_audio_opts (tempdir : String) (resolution : PyRes)
    (streams : List StreamFormat) (prepared : String) :
    (build_ydl_opts tempdir "mp3" resolution).format = "bestaudio/best"
    ∧ (build_ydl_opts tempdir "mp3" resolution).format = audioSelAST.render
    ∧ (build_ydl_opts tempdir "mp3" resolution).postprocessors =
        [⟨"FFmpegExtractAudio", "mp3", "192"⟩]
    ∧ (∀ a, audioSelAST.eval streams = some (.single a) →
        (a.hasAudio = true ∧ a.hasVideo = false
          ∧ ∀ g ∈ streams, matchesAudioOnly g = true → g.pref ≤ a.pref)
        ∨ ((∀ g ∈ streams, matchesAudioOnly g = false)
          ∧ a.hasVideo = true ∧ a.hasAudio = true))
    ∧ (∃ base, mp3AdjustFilename prepared = base ++ ".mp3") := by
  refine ⟨rfl, by rw [audioSelAST_render]; rfl, rfl, ?_,
    ⟨pySplitextRoot prepared, rfl⟩⟩
  intro a hev
  rw [audioSel_eval] at hev
  cases ha : pickBest (streams.filter matchesAudioOnly) with
  | some b =>
    rw [ha] at hev
    simp at hev
    subst hev
    obtain ⟨ham, hap, hamax⟩ := pickBest_filter_spec ha
    obtain ⟨h1, h2⟩ := matchesAudioOnly_spec hap
    exact Or.inl ⟨h1, h2, hamax⟩
  | none =>
    rw [ha] at hev
    cases hm : pickBest (streams.filter (matchesMuxed none)) <;>
      rw [hm] at hev <;> simp at hev
    subst hev
    obtain ⟨hmm, hmp, -⟩ := pickBest_filter_spec hm
    obtain ⟨h1, h2, -⟩ := matchesMuxed_spec hmp
    exact Or.inr ⟨no_match_of_pickBest_filter_none ha, h1, h2⟩

/-- Witness for C4's theorem: a lone audio-only stream is selected, and
its `hasAudio` flag holds on either branch of the conclusion. -/
theorem c4_witness :
    (⟨none, false, true, 3⟩ : StreamFormat).hasAudio = true :=
  ((c4_audio_opts "/tmp/yt_dl_x" PyRes.best [⟨none, false, true, 3⟩]
      "/t/x.webm").2.2.2.1 ⟨none, false, true, 3⟩ (by decide)).elim
    (fun h => h.1) (fun h => h.2.2)

/-- Witness for C3's theorem at the spec's example descriptor list. -/
theorem c3_witness :
    video_heights [some 480, some 480, some 720, none, some 1080] =
      [1080, 720, 480] :=
  (c3_heights_distinct_sorted_desc []).2.2.2

end Downloader
